import Mathlib

/-!
Shallow embedding of `src/static/js/app.js` (a host-metric alerting
dashboard's client-side data pipeline) together with proofs about it.

The embedding models:
* alert records (`AlertRecord`) as received from the backend;
* the metrics aggregation `updateCoreMetrics`;
* the chart-data derivation `processChartData` (CPU trend and alert-type
  distribution), including the JS idioms used there: `Array.prototype.sort`
  with a date comparator (a stable sort, modelled by `List.mergeSort`),
  `slice(-10)`, `split(' ')[1]` (out-of-bounds indexing yields `undefined`,
  modelled by `Option`), and a plain object used as an insertion-ordered
  counter map;
* the metric-name formatter `formatMetricName`;
* the table renderer `renderAlertsTable`;
* the fetch / search / submit handlers as functions from an explicit
  network outcome to the new store contents plus the list of `alert(...)`
  notifications raised;
* the chart-instance slots (`cpuTrendChart` / `alertTypeChart` globals)
  as an explicit state tracking live Chart instances per canvas.
-/

namespace MyMonitor

/-- One alert record as returned by the backend (`result.alerts` items).
`value` is the numeric percentage; the code only compares it with 80. -/
structure AlertRecord where
  created_at : String
  hostname : String
  metric : String
  value : Int
deriving DecidableEq, Repr

/-- JS `x || d` for a possibly-absent string `x`: an absent (`undefined`)
or empty string is falsy, so `d` is returned; otherwise `x` itself. -/
def jsOrString (x : Option String) (d : String) : String :=
  match x with
  | some s => if s = "" then d else s
  | none => d

/-- `formatMetricName` from app.js: static lookup table, unknown ids pass
through via `map[metric] || metric`. -/
def formatMetricName (metric : String) : String :=
  jsOrString
    ([("cpu_usage", "CPU使用率"),
      ("mem_usage", "内存使用率"),
      ("disk_usage", "磁盘使用率"),
      ("network_in", "入站流量"),
      ("network_out", "出站流量")].lookup metric)
    metric

/-- The keys of `formatMetricName`'s lookup table. -/
def metricTableKeys : List String :=
  ["cpu_usage", "mem_usage", "disk_usage", "network_in", "network_out"]

/-- One step of JS `Set` construction: add the element unless already seen. -/
def jsAddIfNew (acc : List String) (x : String) : List String :=
  if x ∈ acc then acc else acc ++ [x]

/-- `[...new Set(l)]` from app.js: iterate over `l`, keeping the first
occurrence of each element, in insertion order. -/
def jsSetOf (l : List String) : List String :=
  l.foldl jsAddIfNew []

/-- The result of `updateCoreMetrics`: the four summary fields written to
the DOM. `systemStatus` is the displayed text (`"警告"` or `"正常"`). -/
structure CoreMetrics where
  total : Nat
  errorHostCount : Nat
  normalCount : Nat
  systemStatus : String
deriving DecidableEq, Repr

/-- `updateCoreMetrics` from app.js, as a pure function of the store. -/
def updateCoreMetrics (alertsData : List AlertRecord) : CoreMetrics :=
  let errorHosts := jsSetOf ((alertsData.filter (fun a => a.value > 80)).map (·.hostname))
  let normalCount := (alertsData.filter (fun a => a.value ≤ 80)).length
  let systemStatus := if errorHosts.length > 0 then "警告" else "正常"
  { total := alertsData.length
    errorHostCount := errorHosts.length
    normalCount := normalCount
    systemStatus := systemStatus }

/-- Numeric key of a `created_at` string, modelling the comparator
`new Date(a.created_at) - new Date(b.created_at)`: for the backend's
`YYYY-MM-DD HH:MM:SS` format the digit string `YYYYMMDDHHMMSS` read as a
number orders exactly as the parsed date does. -/
def dateVal (s : String) : Nat :=
  (s.toList.filter Char.isDigit).foldl (fun n c => 10 * n + (c.toNat - 48)) 0

/-- The boolean `≤` on records induced by the date comparator. -/
def dateLe (a b : AlertRecord) : Bool :=
  dateVal a.created_at ≤ dateVal b.created_at

/-- JS `arr.slice(-10)`: the last 10 elements (all of them when fewer). -/
def sliceLast10 (l : List AlertRecord) : List AlertRecord :=
  l.drop (l.length - 10)

/-- The `cpuAlerts` intermediate of `processChartData`: filter to
`metric === 'cpu_usage'`, stable-sort by parsed `created_at`, keep the
last 10. -/
def cpuAlerts (alertsData : List AlertRecord) : List AlertRecord :=
  sliceLast10 ((alertsData.filter (fun a => a.metric == "cpu_usage")).mergeSort dateLe)

/-- JS `s.split(' ')`: split on every single space character; adjacent
spaces produce empty fields, and a string with no space yields `[s]`. -/
def jsSplitSpaceAux : List Char → List Char → List String
  | [], acc => [String.mk acc.reverse]
  | c :: cs, acc =>
      if c = ' ' then String.mk acc.reverse :: jsSplitSpaceAux cs []
      else jsSplitSpaceAux cs (c :: acc)

/-- JS `s.split(' ')` on a Lean `String`. -/
def jsSplitSpace (s : String) : List String :=
  jsSplitSpaceAux s.toList []

/-- The chart label of a record: `a.created_at.split(' ')[1]`. Indexing
past the end of a JS array yields `undefined`, modelled as `none`. -/
def cpuLabelOf (a : AlertRecord) : Option String :=
  (jsSplitSpace a.created_at).get? 1

/-- One step of `metricCount[name] = (metricCount[name] || 0) + 1` on a
plain JS object modelled as an insertion-ordered association list:
an existing key is updated in place, a new key is appended. -/
def bumpCount : List (String × Nat) → String → List (String × Nat)
  | [], k => [(k, 1)]
  | (k', v) :: rest, k =>
      if k' = k then (k', v + 1) :: rest else (k', v) :: bumpCount rest k

/-- The `metricCount` object built by `processChartData`: occurrence counts
of formatted metric names, keys in insertion order. -/
def metricCounts (alertsData : List AlertRecord) : List (String × Nat) :=
  alertsData.foldl (fun m a => bumpCount m (formatMetricName a.metric)) []

/-- The CPU-trend series handed to Chart.js: labels may be `undefined`
(when `created_at` has no space), hence `Option String`. -/
structure CpuSeries where
  labels : List (Option String)
  values : List Int
deriving DecidableEq, Repr

/-- The alert-type distribution series handed to Chart.js. -/
structure TypeSeries where
  labels : List String
  values : List Nat
deriving DecidableEq, Repr

/-- The value returned by `processChartData`. -/
structure ChartData where
  cpuData : CpuSeries
  alertTypeData : TypeSeries
deriving DecidableEq, Repr

/-- `processChartData` from app.js, as a pure function of the store. -/
def processChartData (alertsData : List AlertRecord) : ChartData :=
  let cpu := cpuAlerts alertsData
  let counts := metricCounts alertsData
  { cpuData := { labels := cpu.map cpuLabelOf, values := cpu.map (·.value) }
    alertTypeData := { labels := counts.map Prod.fst, values := counts.map Prod.snd } }

/-- A row written into the alerts table body: either the "no data"
placeholder row or a data row for one record. -/
inductive TableRow where
  | placeholder (colspan : Nat) (text : String)
  | dataRow (createdAt hostname metricLabel : String) (value : Int) (statusBadge : String)
deriving DecidableEq, Repr

/-- Whether a row is a data row (as opposed to the placeholder). -/
def TableRow.isDataRow : TableRow → Bool
  | .dataRow _ _ _ _ _ => true
  | .placeholder _ _ => false

/-- `renderAlertsTable` from app.js: the rows it leaves in the table body,
as a function of the store. -/
def renderAlertsTable (alertsData : List AlertRecord) : List TableRow :=
  if alertsData.length = 0 then
    [TableRow.placeholder 5 "暂无告警数据"]
  else
    alertsData.map (fun a =>
      TableRow.dataRow a.created_at a.hostname (formatMetricName a.metric) a.value
        (if a.value > 80 then "警告" else "提示"))

/-- The outcome of a `fetch` + `response.json()` round trip for the two
read endpoints: the transport may reject, the status may be non-success
(`!response.ok`), the body may fail to parse, or a payload arrives whose
`alerts` field may be absent. -/
inductive FetchOutcome where
  | transportError (msg : String)
  | httpError
  | parseError (msg : String)
  | success (alerts : Option (List AlertRecord))
deriving DecidableEq, Repr

/-- Whether the outcome is one of the three failure cases. -/
def FetchOutcome.isFailure : FetchOutcome → Bool
  | .transportError _ => true
  | .httpError => true
  | .parseError _ => true
  | .success _ => false

/-- `refreshAlerts` from app.js: given the current store and the network
outcome, the new store and the list of `alert(...)` notifications.
On `!response.ok` the handler throws `Error('接口请求失败')`; every
throw is caught and surfaced as `'刷新数据失败：' + error.message`. -/
def refreshAlerts (alertsData : List AlertRecord) (o : FetchOutcome) :
    List AlertRecord × List String :=
  match o with
  | .transportError m => (alertsData, ["刷新数据失败：" ++ m])
  | .httpError => (alertsData, ["刷新数据失败：" ++ "接口请求失败"])
  | .parseError m => (alertsData, ["刷新数据失败：" ++ m])
  | .success alerts => (alerts.getD [], [])

/-- `searchAlerts`'s response handling from app.js: on `!response.ok` the
handler throws `Error('搜索失败')`; failures surface as
`'搜索告警失败：' + error.message`; success installs `result.alerts || []`
and raises the `搜索完成` notification. -/
def searchAlertsHandle (alertsData : List AlertRecord) (o : FetchOutcome) :
    List AlertRecord × List String :=
  match o with
  | .transportError m => (alertsData, ["搜索告警失败：" ++ m])
  | .httpError => (alertsData, ["搜索告警失败：" ++ "搜索失败"])
  | .parseError m => (alertsData, ["搜索告警失败：" ++ m])
  | .success alerts =>
      let installed := alerts.getD []
      (installed, ["搜索完成，共找到 " ++ toString installed.length ++ " 条记录"])

/-- The outcome of the `POST /alerts/` round trip in `submitAlert`:
failure cases as for the read endpoints; success carries the backend's
confirmation `result.message`. -/
inductive SubmitOutcome where
  | transportError (msg : String)
  | httpError
  | parseError (msg : String)
  | success (message : String)
deriving DecidableEq, Repr

/-- Whether the submit outcome is one of the three failure cases. -/
def SubmitOutcome.isFailure : SubmitOutcome → Bool
  | .transportError _ => true
  | .httpError => true
  | .parseError _ => true
  | .success _ => false

/-- `submitAlert`'s response handling from app.js: on `!response.ok` the
handler throws `Error('提交失败')`; failures surface as
`'提交告警失败：' + error.message` and nothing else runs; on success the
confirmation is shown and `refreshAlerts` runs with its own outcome `ro`. -/
def submitAlertHandle (alertsData : List AlertRecord) (o : SubmitOutcome)
    (ro : FetchOutcome) : List AlertRecord × List String :=
  match o with
  | .transportError m => (alertsData, ["提交告警失败：" ++ m])
  | .httpError => (alertsData, ["提交告警失败：" ++ "提交失败"])
  | .parseError m => (alertsData, ["提交告警失败：" ++ m])
  | .success message =>
      let r := refreshAlerts alertsData ro
      (r.1, message :: r.2)

/-- JS `s.trim()`: strip whitespace from both ends of the string. -/
def jsTrim (s : String) : String :=
  String.mk (((s.toList.dropWhile Char.isWhitespace).reverse.dropWhile
    Char.isWhitespace).reverse)

/-- The three search-form fields as read in `searchAlerts`
(`search-hostname`, `search-start-time`, `search-end-time`). -/
structure SearchCriteria where
  hostname : String
  startTime : String
  endTime : String
deriving DecidableEq, Repr

/-- The `URLSearchParams` built by `searchAlerts`: the hostname field is
read pre-trimmed (`.value.trim()`) and appended when truthy; the two time
fields are read verbatim and appended when truthy (non-empty). -/
def buildSearchParams (c : SearchCriteria) : List (String × String) :=
  (if jsTrim c.hostname ≠ "" then [("hostname", jsTrim c.hostname)] else []) ++
  (if c.startTime ≠ "" then [("start_time", c.startTime)] else []) ++
  (if c.endTime ≠ "" then [("end_time", c.endTime)] else [])

/-- The request issued by `searchAlerts`: always the `/alerts/search`
route, with the parameter list above. -/
def searchRequest (c : SearchCriteria) : String × List (String × String) :=
  ("/alerts/search", buildSearchParams c)

/-- The chart-instance bookkeeping of app.js: `live` is the list of
Chart instances created and not yet destroyed, each tagged with the id of
the canvas it draws on; `cpuTrendChart` / `alertTypeChart` are the two
global slot variables (`none` models the initial `null`). `nextId`
supplies fresh instance identities. -/
structure ChartState where
  nextId : Nat
  live : List (Nat × String)
  cpuTrendChart : Option Nat
  alertTypeChart : Option Nat
deriving DecidableEq, Repr

/-- The initial chart state: both globals `null`, no live instance. -/
def initialChartState : ChartState :=
  { nextId := 0, live := [], cpuTrendChart := none, alertTypeChart := none }

/-- `chart.destroy()`: the instance stops being live. -/
def destroyChart (live : List (Nat × String)) (id : Nat) : List (Nat × String) :=
  live.filter (fun p => p.1 ≠ id)

/-- `renderCpuTrendChart` from app.js: destroy the old instance held by
the `cpuTrendChart` global (when non-null), then create a new `Chart` on
the `cpuTrendChart` canvas and store it in the global. The series drawn
does not affect instance bookkeeping. -/
def renderCpuTrendChart (st : ChartState) (_data : CpuSeries) : ChartState :=
  let live1 := match st.cpuTrendChart with
    | some id => destroyChart st.live id
    | none => st.live
  { nextId := st.nextId + 1
    live := live1 ++ [(st.nextId, "cpuTrendChart")]
    cpuTrendChart := some st.nextId
    alertTypeChart := st.alertTypeChart }

/-- `renderAlertTypeChart` from app.js: same protocol on the
`alertTypeChart` canvas and global. -/
def renderAlertTypeChart (st : ChartState) (_data : TypeSeries) : ChartState :=
  let live1 := match st.alertTypeChart with
    | some id => destroyChart st.live id
    | none => st.live
  { nextId := st.nextId + 1
    live := live1 ++ [(st.nextId, "alertTypeChart")]
    cpuTrendChart := st.cpuTrendChart
    alertTypeChart := some st.nextId }

/-- `renderCharts` from app.js: build both series from the store, then
repaint the CPU trend chart and the alert-type chart in that order. -/
def renderCharts (st : ChartState) (alertsData : List AlertRecord) : ChartState :=
  let chartData := processChartData alertsData
  renderAlertTypeChart (renderCpuTrendChart st chartData.cpuData) chartData.alertTypeData

/-- The live instances drawing on a given canvas. -/
def liveOn (st : ChartState) (canvas : String) : List (Nat × String) :=
  st.live.filter (fun p => p.2 = canvas)

/-- Well-formedness of the chart state, as maintained by app.js: every
live instance and every tracked slot id was created in the past
(`id < nextId`), instance ids are distinct, every live instance on one of
the two canvases is the one currently tracked by the corresponding global
slot, and the two slots never track the same instance. -/
def ChartState.wf (st : ChartState) : Prop :=
  (∀ p ∈ st.live, p.1 < st.nextId) ∧
  (st.live.map Prod.fst).Nodup ∧
  (∀ p ∈ st.live, p.2 = "cpuTrendChart" → st.cpuTrendChart = some p.1) ∧
  (∀ p ∈ st.live, p.2 = "alertTypeChart" → st.alertTypeChart = some p.1) ∧
  (∀ i, st.cpuTrendChart = some i → i < st.nextId) ∧
  (∀ i, st.alertTypeChart = some i → i < st.nextId) ∧
  (∀ i, st.cpuTrendChart = some i → st.alertTypeChart ≠ some i)

/-- Spec-side definition ("distinct formatted metric names present in C,
ordered by first appearance"): keep the first occurrence of each element,
drop the rest. Compared with the source-side object-key order. -/
def firstAppearanceDedup : List String → List String
  | [] => []
  | x :: xs => x :: firstAppearanceDedup (xs.filter (fun y => y ≠ x))
termination_by l => l.length
decreasing_by
  simp only [List.length_cons]
  exact Nat.lt_succ_of_le (List.length_filter_le _ _)

/-! ### Helper lemmas about the JS `Set` model -/

theorem mem_foldl_jsAddIfNew (l : List String) (acc : List String) (x : String) :
    x ∈ l.foldl jsAddIfNew acc ↔ x ∈ acc ∨ x ∈ l := by
  induction l generalizing acc with
  | nil => simp
  | cons y ys ih =>
      simp only [List.foldl_cons, jsAddIfNew]
      by_cases h : y ∈ acc
      · rw [if_pos h, ih]
        simp only [List.mem_cons]
        constructor
        · rintro (h1 | h1)
          · exact Or.inl h1
          · exact Or.inr (Or.inr h1)
        · rintro (h1 | h1 | h1)
          · exact Or.inl h1
          · exact Or.inl (h1 ▸ h)
          · exact Or.inr h1
      · rw [if_neg h, ih]
        simp only [List.mem_append, List.mem_cons, List.mem_singleton]
        tauto

theorem nodup_foldl_jsAddIfNew (l : List String) (acc : List String) (h : acc.Nodup) :
    (l.foldl jsAddIfNew acc).Nodup := by
  induction l generalizing acc with
  | nil => simpa using h
  | cons y ys ih =>
      simp only [List.foldl_cons, jsAddIfNew]
      by_cases hy : y ∈ acc
      · rw [if_pos hy]; exact ih _ h
      · rw [if_neg hy]
        exact ih _ (by simp [List.nodup_append, h, hy])

theorem mem_jsSetOf (l : List String) (x : String) : x ∈ jsSetOf l ↔ x ∈ l := by
  simp [jsSetOf, mem_foldl_jsAddIfNew]

theorem nodup_jsSetOf (l : List String) : (jsSetOf l).Nodup :=
  nodup_foldl_jsAddIfNew l [] List.nodup_nil

theorem length_jsSetOf (l : List String) : (jsSetOf l).length = l.toFinset.card := by
  have h1 : (jsSetOf l).toFinset = l.toFinset := by
    ext x
    simp [List.mem_toFinset, mem_jsSetOf]
  calc (jsSetOf l).length
      = (jsSetOf l).toFinset.card := (List.toFinset_card_of_nodup (nodup_jsSetOf l)).symm
    _ = l.toFinset.card := by rw [h1]

/-! ### Claim theorems (first group) -/

/-- C1: `updateCoreMetrics` computes `total = |C|`, `errorHostCount` = the
number of distinct hostnames having at least one record with value > 80,
`normalCount` = the number of records with value ≤ 80, and the system
status reads `警告` (WARNING) iff `errorHostCount > 0`; on the empty
collection it yields `0, 0, 0, 正常` (NORMAL). -/
theorem updateCoreMetrics_correct (C : List AlertRecord) :
    (updateCoreMetrics C).total = C.length
    ∧ (updateCoreMetrics C).errorHostCount
        = ((C.filter (fun a => a.value > 80)).map (·.hostname)).toFinset.card
    ∧ (updateCoreMetrics C).normalCount = (C.filter (fun a => a.value ≤ 80)).length
    ∧ ((updateCoreMetrics C).systemStatus = "警告"
        ↔ 0 < (updateCoreMetrics C).errorHostCount)
    ∧ updateCoreMetrics [] = ⟨0, 0, 0, "正常"⟩ := by
  refine ⟨rfl, length_jsSetOf _, rfl, ?_, rfl⟩
  by_cases h :
      0 < (jsSetOf ((C.filter (fun a => a.value > 80)).map (·.hostname))).length
  · simp [updateCoreMetrics, h]
  · simp only [updateCoreMetrics, gt_iff_lt, if_neg h]
    constructor
    · intro hs
      exact absurd hs (by decide)
    · intro hs
      exact absurd hs h

/-- C7: `formatMetricName` realises exactly the five-entry static table and
returns any identifier outside the table unchanged. -/
theorem formatMetricName_correct :
    formatMetricName "cpu_usage" = "CPU使用率"
    ∧ formatMetricName "mem_usage" = "内存使用率"
    ∧ formatMetricName "disk_usage" = "磁盘使用率"
    ∧ formatMetricName "network_in" = "入站流量"
    ∧ formatMetricName "network_out" = "出站流量"
    ∧ ∀ m : String, m ∉ metricTableKeys → formatMetricName m = m := by
  refine ⟨rfl, rfl, rfl, rfl, rfl, ?_⟩
  intro m hm
  simp only [metricTableKeys, List.mem_cons, List.not_mem_nil, or_false, not_or] at hm
  obtain ⟨h1, h2, h3, h4, h5⟩ := hm
  have e1 : (m == "cpu_usage") = false := beq_eq_false_iff_ne.mpr h1
  have e2 : (m == "mem_usage") = false := beq_eq_false_iff_ne.mpr h2
  have e3 : (m == "disk_usage") = false := beq_eq_false_iff_ne.mpr h3
  have e4 : (m == "network_in") = false := beq_eq_false_iff_ne.mpr h4
  have e5 : (m == "network_out") = false := beq_eq_false_iff_ne.mpr h5
  simp [formatMetricName, jsOrString, List.lookup, e1, e2, e3, e4, e5]

/-- C7 witness: the pass-through branch at the concrete id `unknown_x`. -/
theorem formatMetricName_correct_witness :
    "unknown_x" ∉ metricTableKeys ∧ formatMetricName "unknown_x" = "unknown_x" :=
  ⟨by decide, formatMetricName_correct.2.2.2.2.2 "unknown_x" (by decide)⟩

/-- C8: on a successful fetch-all or search response the installed
collection is `result.alerts` when the field is present and `[]` when it
is absent; it is never a missing value. -/
theorem installedCollection_correct (st l : List AlertRecord) :
    (refreshAlerts st (.success (some l))).1 = l
    ∧ (refreshAlerts st (.success none)).1 = []
    ∧ (searchAlertsHandle st (.success (some l))).1 = l
    ∧ (searchAlertsHandle st (.success none)).1 = [] :=
  ⟨rfl, rfl, rfl, rfl⟩

/-- C10: on the empty collection the table render emits exactly the one
placeholder row (colspan 5, text `暂无告警数据`) and no data rows. -/
theorem renderAlertsTable_empty :
    renderAlertsTable [] = [TableRow.placeholder 5 "暂无告警数据"]
    ∧ (renderAlertsTable []).filter (fun r => r.isDataRow) = []
    ∧ (renderAlertsTable []).length = 1 :=
  ⟨rfl, rfl, rfl⟩

/-- C5: every failing load, search or submit (transport error, non-success
status, or unparseable payload) is caught, leaves the store unchanged,
produces exactly one notification prefixed by the failing operation, and
all derived views (table, metrics, charts) of the store are unchanged. -/
theorem failureLeavesStateIntact (st : List AlertRecord) (o : FetchOutcome)
    (so : SubmitOutcome) (ro : FetchOutcome)
    (ho : o.isFailure = true) (hso : so.isFailure = true) :
    ((refreshAlerts st o).1 = st
      ∧ ∃ m, (refreshAlerts st o).2 = ["刷新数据失败：" ++ m])
    ∧ ((searchAlertsHandle st o).1 = st
      ∧ ∃ m, (searchAlertsHandle st o).2 = ["搜索告警失败：" ++ m])
    ∧ ((submitAlertHandle st so ro).1 = st
      ∧ ∃ m, (submitAlertHandle st so ro).2 = ["提交告警失败：" ++ m])
    ∧ renderAlertsTable (refreshAlerts st o).1 = renderAlertsTable st
    ∧ updateCoreMetrics (refreshAlerts st o).1 = updateCoreMetrics st
    ∧ processChartData (refreshAlerts st o).1 = processChartData st
    ∧ renderAlertsTable (submitAlertHandle st so ro).1 = renderAlertsTable st
    ∧ updateCoreMetrics (submitAlertHandle st so ro).1 = updateCoreMetrics st
    ∧ processChartData (submitAlertHandle st so ro).1 = processChartData st := by
  have hsub : (submitAlertHandle st so ro).1 = st
      ∧ ∃ m, (submitAlertHandle st so ro).2 = ["提交告警失败：" ++ m] := by
    cases so with
    | transportError m => exact ⟨rfl, m, rfl⟩
    | httpError => exact ⟨rfl, "提交失败", rfl⟩
    | parseError m => exact ⟨rfl, m, rfl⟩
    | success m => exact absurd hso (by simp [SubmitOutcome.isFailure])
  have href : (refreshAlerts st o).1 = st
      ∧ ∃ m, (refreshAlerts st o).2 = ["刷新数据失败：" ++ m] := by
    cases o with
    | transportError m => exact ⟨rfl, m, rfl⟩
    | httpError => exact ⟨rfl, "接口请求失败", rfl⟩
    | parseError m => exact ⟨rfl, m, rfl⟩
    | success a => exact absurd ho (by simp [FetchOutcome.isFailure])
  have hsea : (searchAlertsHandle st o).1 = st
      ∧ ∃ m, (searchAlertsHandle st o).2 = ["搜索告警失败：" ++ m] := by
    cases o with
    | transportError m => exact ⟨rfl, m, rfl⟩
    | httpError => exact ⟨rfl, "搜索失败", rfl⟩
    | parseError m => exact ⟨rfl, m, rfl⟩
    | success a => exact absurd ho (by simp [FetchOutcome.isFailure])
  exact ⟨href, hsea, hsub, by rw [href.1], by rw [href.1], by rw [href.1],
    by rw [hsub.1], by rw [hsub.1], by rw [hsub.1]⟩

/-! ### Splitting lemmas for the CPU chart labels -/

theorem jsSplitSpaceAux_no_space (cs : List Char) (acc : List Char)
    (h : ∀ c ∈ cs, c ≠ ' ') :
    jsSplitSpaceAux cs acc = [String.mk (acc.reverse ++ cs)] := by
  induction cs generalizing acc with
  | nil => simp [jsSplitSpaceAux]
  | cons c cs ih =>
      have hc : c ≠ ' ' := h c (List.mem_cons_self c cs)
      simp only [jsSplitSpaceAux, if_neg hc]
      rw [ih (c :: acc) (fun x hx => h x (List.mem_cons_of_mem _ hx))]
      simp

theorem jsSplitSpaceAux_space_split (xs ys : List Char) (acc : List Char)
    (h : ∀ c ∈ xs, c ≠ ' ') :
    jsSplitSpaceAux (xs ++ ' ' :: ys) acc
      = String.mk (acc.reverse ++ xs) :: jsSplitSpaceAux ys [] := by
  induction xs generalizing acc with
  | nil => simp [jsSplitSpaceAux]
  | cons c cs ih =>
      have hc : c ≠ ' ' := h c (List.mem_cons_self c cs)
      simp only [List.cons_append, jsSplitSpaceAux, if_neg hc, List.append_eq]
      rw [ih (c :: acc) (fun x hx => h x (List.mem_cons_of_mem _ hx))]
      simp

theorem jsSplitSpace_no_space (s : String) (h : ∀ c ∈ s.toList, c ≠ ' ') :
    jsSplitSpace s = [s] := by
  rw [jsSplitSpace, jsSplitSpaceAux_no_space _ _ h]
  simp

/-- C3 is false as stated: for a record whose `created_at` contains no
space, the label is `undefined` (`split(' ')[1]` is out of bounds), not
the raw `created_at` string. -/
theorem cpuLabel_no_space_counterexample :
    (processChartData [⟨"2024-01-01T10:00:00", "h1", "cpu_usage", 50⟩]).cpuData.labels
      = [none]
    ∧ (processChartData [⟨"2024-01-01T10:00:00", "h1", "cpu_usage", 50⟩]).cpuData.labels
      ≠ [some "2024-01-01T10:00:00"] := by
  have h : cpuAlerts [⟨"2024-01-01T10:00:00", "h1", "cpu_usage", 50⟩]
      = [⟨"2024-01-01T10:00:00", "h1", "cpu_usage", 50⟩] := by
    simp [cpuAlerts, sliceLast10]
  have hl : cpuLabelOf (⟨"2024-01-01T10:00:00", "h1", "cpu_usage", 50⟩ : AlertRecord)
      = none := by decide
  have h1 : (processChartData [⟨"2024-01-01T10:00:00", "h1", "cpu_usage", 50⟩]).cpuData.labels
      = [none] := by
    show (cpuAlerts _).map cpuLabelOf = [none]
    rw [h]
    simp [hl]
  exact ⟨h1, by rw [h1]; decide⟩

/-- C3 amended: each selected record's label is element 1 of
`created_at.split(' ')` — for a standard `date time` timestamp (one space,
spaceless halves) that is the time-of-day portion — and when `created_at`
contains no space the label is `undefined` (absent), not the raw string;
label formatting never fails. -/
theorem cpuLabels_spec (C : List AlertRecord) :
    (processChartData C).cpuData.labels = (cpuAlerts C).map cpuLabelOf
    ∧ (∀ a : AlertRecord, (∀ c ∈ a.created_at.toList, c ≠ ' ') → cpuLabelOf a = none)
    ∧ (∀ a : AlertRecord, ∀ pre post : String,
        a.created_at.toList = pre.toList ++ ' ' :: post.toList →
        (∀ c ∈ pre.toList, c ≠ ' ') →
        (∀ c ∈ post.toList, c ≠ ' ') →
        cpuLabelOf a = some post) := by
  refine ⟨rfl, ?_, ?_⟩
  · intro a ha
    rw [cpuLabelOf, jsSplitSpace_no_space _ ha]
    rfl
  · intro a pre post hsplit hpre hpost
    rw [cpuLabelOf, jsSplitSpace, hsplit,
      jsSplitSpaceAux_space_split _ _ _ hpre,
      jsSplitSpaceAux_no_space _ _ hpost]
    simp

/-- C3 amended witness: the two label shapes at concrete records — a
standard timestamp yields the time-of-day, a spaceless one yields no
label. -/
theorem cpuLabels_spec_witness :
    cpuLabelOf ⟨"2024-01-01 10:00:00", "h1", "cpu_usage", 90⟩ = some "10:00:00"
    ∧ cpuLabelOf ⟨"2024-01-01T10:00:00", "h1", "cpu_usage", 50⟩ = none :=
  ⟨(cpuLabels_spec []).2.2 ⟨"2024-01-01 10:00:00", "h1", "cpu_usage", 90⟩
      "2024-01-01" "10:00:00" (by decide) (by decide) (by decide),
    (cpuLabels_spec []).2.1 ⟨"2024-01-01T10:00:00", "h1", "cpu_usage", 50⟩ (by decide)⟩

/-- C6 is false as stated: the time fields are appended verbatim, not
trimmed — a `start_time` of `" 2024-01-01"` is sent with its leading
space. -/
theorem searchParams_time_not_trimmed :
    buildSearchParams ⟨"", " 2024-01-01", ""⟩ = [("start_time", " 2024-01-01")]
    ∧ ¬ ∀ kv ∈ buildSearchParams ⟨"", " 2024-01-01", ""⟩, jsTrim kv.2 = kv.2 := by
  constructor
  · decide
  · decide

/-- C6 amended: the search request always targets the `/alerts/search`
route; the query contains exactly the non-empty fields, with `hostname`
trimmed but `start_time`/`end_time` taken verbatim; all-empty criteria
yield an empty parameter list (still on the search route). -/
theorem searchRequest_correct (c : SearchCriteria) :
    (searchRequest c).1 = "/alerts/search"
    ∧ ((searchRequest c).2.lookup "hostname"
        = if jsTrim c.hostname = "" then none else some (jsTrim c.hostname))
    ∧ ((searchRequest c).2.lookup "start_time"
        = if c.startTime = "" then none else some c.startTime)
    ∧ ((searchRequest c).2.lookup "end_time"
        = if c.endTime = "" then none else some c.endTime)
    ∧ ((searchRequest c).2 = []
        ↔ jsTrim c.hostname = "" ∧ c.startTime = "" ∧ c.endTime = "")
    ∧ (searchRequest ⟨"", "", ""⟩).2 = [] := by
  refine ⟨rfl, ?_, ?_, ?_, ?_, by decide⟩ <;>
    (by_cases h1 : jsTrim c.hostname = "" <;>
      by_cases h2 : c.startTime = "" <;>
      by_cases h3 : c.endTime = "" <;>
      simp [searchRequest, buildSearchParams, List.lookup, h1, h2, h3])

/-- C5 witness: the failing-status case at concrete inputs — empty store,
`!response.ok` on all three operations. -/
theorem failureLeavesStateIntact_witness :
    FetchOutcome.httpError.isFailure = true
    ∧ SubmitOutcome.httpError.isFailure = true
    ∧ (((refreshAlerts ([] : List AlertRecord) .httpError).1 = []
        ∧ ∃ m, (refreshAlerts ([] : List AlertRecord) .httpError).2 = ["刷新数据失败：" ++ m])
      ∧ ((searchAlertsHandle [] .httpError).1 = []
        ∧ ∃ m, (searchAlertsHandle [] .httpError).2 = ["搜索告警失败：" ++ m])
      ∧ ((submitAlertHandle [] .httpError .httpError).1 = []
        ∧ ∃ m, (submitAlertHandle [] .httpError .httpError).2 = ["提交告警失败：" ++ m])
      ∧ renderAlertsTable (refreshAlerts [] .httpError).1 = renderAlertsTable []
      ∧ updateCoreMetrics (refreshAlerts [] .httpError).1 = updateCoreMetrics []
      ∧ processChartData (refreshAlerts [] .httpError).1 = processChartData []
      ∧ renderAlertsTable (submitAlertHandle [] .httpError .httpError).1 = renderAlertsTable []
      ∧ updateCoreMetrics (submitAlertHandle [] .httpError .httpError).1 = updateCoreMetrics []
      ∧ processChartData (submitAlertHandle [] .httpError .httpError).1 = processChartData []) :=
  ⟨rfl, rfl, failureLeavesStateIntact [] .httpError .httpError .httpError rfl rfl⟩

/-! ### CPU trend (C2) -/

theorem dateLe_trans (a b c : AlertRecord) (hab : dateLe a b) (hbc : dateLe b c) :
    dateLe a c = true := by
  simp only [dateLe, decide_eq_true_eq] at *
  omega

theorem dateLe_total (a b : AlertRecord) : dateLe a b || dateLe b a := by
  simp only [dateLe, Bool.or_eq_true, decide_eq_true_eq]
  omega

/-- C2: the CPU trend keeps exactly the `cpu_usage` records: the sort is a
permutation of the filter, ascending by timestamp, and stable (records
with equal timestamps keep their relative order); the result is the
suffix of the last 10, so its length is `min 10 (count)` and its entries
are in non-decreasing timestamp order, all with metric `cpu_usage`. -/
theorem cpuAlerts_correct (C : List AlertRecord) :
    cpuAlerts C
      = ((C.filter (fun a => a.metric == "cpu_usage")).mergeSort dateLe).drop
          (((C.filter (fun a => a.metric == "cpu_usage")).mergeSort dateLe).length - 10)
    ∧ ((C.filter (fun a => a.metric == "cpu_usage")).mergeSort dateLe).Perm
        (C.filter (fun a => a.metric == "cpu_usage"))
    ∧ ((C.filter (fun a => a.metric == "cpu_usage")).mergeSort dateLe).Pairwise
        (fun a b => dateVal a.created_at ≤ dateVal b.created_at)
    ∧ (∀ t : Nat,
        ((C.filter (fun a => a.metric == "cpu_usage")).mergeSort dateLe).filter
            (fun r => dateVal r.created_at == t)
          = (C.filter (fun a => a.metric == "cpu_usage")).filter
              (fun r => dateVal r.created_at == t))
    ∧ (cpuAlerts C).length = min 10 (C.filter (fun a => a.metric == "cpu_usage")).length
    ∧ (cpuAlerts C).Pairwise (fun a b => dateVal a.created_at ≤ dateVal b.created_at)
    ∧ (∀ r ∈ cpuAlerts C, r.metric = "cpu_usage") := by
  have trans : ∀ a b c : AlertRecord, dateLe a b → dateLe b c → dateLe a c := dateLe_trans
  have total : ∀ a b : AlertRecord, dateLe a b || dateLe b a := dateLe_total
  set f := C.filter (fun a => a.metric == "cpu_usage") with hf
  set s := f.mergeSort dateLe with hs
  have hperm : s.Perm f := List.mergeSort_perm f dateLe
  have hsortedBool : s.Pairwise (fun a b => dateLe a b) := List.sorted_mergeSort trans total f
  have hsorted : s.Pairwise (fun a b => dateVal a.created_at ≤ dateVal b.created_at) :=
    hsortedBool.imp (by intro a b h; simpa [dateLe, decide_eq_true_eq] using h)
  have hstab : ∀ t : Nat,
      s.filter (fun r => dateVal r.created_at == t)
        = f.filter (fun r => dateVal r.created_at == t) := by
    intro t
    set p : AlertRecord → Bool := fun r => dateVal r.created_at == t with hp
    have hkey : ∀ r, p r = true → dateVal r.created_at = t := by
      intro r hr
      simpa [hp] using hr
    have hBpair : (f.filter p).Pairwise (fun a b => dateLe a b = true) := by
      apply List.pairwise_of_forall_mem_list
      intro a ha b hb
      have ha' := hkey a (List.mem_filter.mp ha).2
      have hb' := hkey b (List.mem_filter.mp hb).2
      simp [dateLe, ha', hb']
    have hBs : List.Sublist (f.filter p) s :=
      List.sublist_mergeSort trans total hBpair (List.filter_sublist f)
    have hBtrue : (f.filter p).filter p = f.filter p := by
      apply List.filter_eq_self.mpr
      intro a ha
      exact (List.mem_filter.mp ha).2
    have hsub : List.Sublist (f.filter p) (s.filter p) := by
      have := hBs.filter p
      rwa [hBtrue] at this
    have hlen : (s.filter p).length = (f.filter p).length :=
      (hperm.filter p).length_eq
    exact (hsub.eq_of_length hlen.symm).symm
  refine ⟨rfl, hperm, hsorted, hstab, ?_, ?_, ?_⟩
  · have h1 : (cpuAlerts C).length = s.length - (s.length - 10) := by
      simp [cpuAlerts, sliceLast10, List.length_drop, hs, hf]
    have h2 : s.length = f.length := List.length_mergeSort f
    rw [h1, h2]
    omega
  · exact List.Pairwise.sublist (List.drop_sublist _ _) hsorted
  · intro r hr
    have hrs : r ∈ s := (List.drop_sublist _ _).mem hr
    have hrf : r ∈ f := (List.mem_mergeSort).mp hrs
    have := (List.mem_filter.mp hrf).2
    simpa using this

/-! ### Alert-type distribution (C4) -/

theorem foldl_jsAddIfNew_eq_append_fad (xs : List String) :
    ∀ acc : List String,
      xs.foldl jsAddIfNew acc
        = acc ++ firstAppearanceDedup (xs.filter (fun y => y ∉ acc)) := by
  induction xs with
  | nil =>
      intro acc
      simp [firstAppearanceDedup]
  | cons y ys ih =>
      intro acc
      by_cases hy : y ∈ acc
      · have hd : (decide (y ∉ acc)) = false := by simp [hy]
        simp only [List.foldl_cons, jsAddIfNew, if_pos hy, List.filter_cons, hd]
        simpa using ih acc
      · have hd : (decide (y ∉ acc)) = true := by simp [hy]
        simp only [List.foldl_cons, jsAddIfNew, if_neg hy, List.filter_cons, hd, if_pos]
        rw [ih (acc ++ [y])]
        rw [show firstAppearanceDedup (y :: ys.filter (fun z => decide (z ∉ acc)))
              = y :: firstAppearanceDedup ((ys.filter (fun z => decide (z ∉ acc))).filter
                  (fun z => decide (z ≠ y))) from by rw [firstAppearanceDedup]]
        rw [List.filter_filter]
        have hpred : ∀ a ∈ ys,
            (decide (a ∉ acc ++ [y])) = (decide (a ≠ y) && decide (a ∉ acc)) := by
          intro a _
          by_cases h1 : a = y <;> by_cases h2 : a ∈ acc <;> simp [h1, h2]
        rw [List.filter_congr hpred]
        simp

theorem jsSetOf_eq_firstAppearanceDedup (xs : List String) :
    jsSetOf xs = firstAppearanceDedup xs := by
  rw [jsSetOf, foldl_jsAddIfNew_eq_append_fad xs []]
  have hfil : xs.filter (fun y => decide (y ∉ ([] : List String))) = xs :=
    List.filter_eq_self.mpr (by intro a _; simp)
  rw [hfil]
  simp

theorem map_fst_bumpCount (m : List (String × Nat)) (k : String) :
    (bumpCount m k).map Prod.fst = jsAddIfNew (m.map Prod.fst) k := by
  induction m with
  | nil => simp [bumpCount, jsAddIfNew]
  | cons p rest ih =>
      obtain ⟨k', v⟩ := p
      by_cases h : k' = k
      · subst h
        simp [bumpCount, jsAddIfNew]
      · simp only [bumpCount, if_neg h, List.map_cons, ih, jsAddIfNew]
        by_cases hk : k ∈ rest.map Prod.fst
        · simp [hk, Ne.symm h]
        · simp [hk, Ne.symm h]

theorem map_fst_foldl_bumpCount (ks : List String) :
    ∀ m : List (String × Nat),
      (ks.foldl bumpCount m).map Prod.fst = ks.foldl jsAddIfNew (m.map Prod.fst) := by
  induction ks with
  | nil => intro m; rfl
  | cons y ys ih =>
      intro m
      simp only [List.foldl_cons]
      rw [ih, map_fst_bumpCount]

theorem sum_bumpCount (m : List (String × Nat)) (k : String) :
    ((bumpCount m k).map Prod.snd).sum = ((m.map Prod.snd).sum) + 1 := by
  induction m with
  | nil => simp [bumpCount]
  | cons p rest ih =>
      obtain ⟨k', v⟩ := p
      by_cases h : k' = k
      · subst h
        simp [bumpCount]
        omega
      · simp [bumpCount, if_neg h, ih]
        omega

theorem sum_foldl_bumpCount (ks : List String) :
    ∀ m : List (String × Nat),
      ((ks.foldl bumpCount m).map Prod.snd).sum = ((m.map Prod.snd).sum) + ks.length := by
  induction ks with
  | nil => intro m; simp
  | cons y ys ih =>
      intro m
      simp only [List.foldl_cons, List.length_cons]
      rw [ih, sum_bumpCount]
      omega

theorem lookup_bumpCount_self (m : List (String × Nat)) (k : String) :
    (bumpCount m k).lookup k = some (((m.lookup k).getD 0) + 1) := by
  induction m with
  | nil => simp [bumpCount]
  | cons p rest ih =>
      obtain ⟨k', v⟩ := p
      by_cases h : k' = k
      · subst h
        simp [bumpCount]
      · have hbeq : (k == k') = false := beq_eq_false_iff_ne.mpr (Ne.symm h)
        simp [bumpCount, if_neg h, List.lookup, hbeq, ih]

theorem lookup_bumpCount_other (m : List (String × Nat)) (k k' : String) (h : k' ≠ k) :
    (bumpCount m k).lookup k' = m.lookup k' := by
  have hbeq : (k' == k) = false := beq_eq_false_iff_ne.mpr h
  induction m with
  | nil => simp [bumpCount, List.lookup, hbeq]
  | cons p rest ih =>
      obtain ⟨k₀, v⟩ := p
      by_cases h0 : k₀ = k
      · subst h0
        simp [bumpCount, List.lookup, hbeq]
      · simp only [bumpCount, if_neg h0, List.lookup]
        rw [ih]

theorem lookup_foldl_bumpCount_not_mem (ks : List String) :
    ∀ (m : List (String × Nat)) (k : String), k ∉ ks →
      (ks.foldl bumpCount m).lookup k = m.lookup k := by
  induction ks with
  | nil => intro m k _; rfl
  | cons y ys ih =>
      intro m k hk
      have h1 : k ≠ y := fun h => hk (h ▸ List.mem_cons_self y ys)
      have h2 : k ∉ ys := fun h => hk (List.mem_cons_of_mem _ h)
      simp only [List.foldl_cons]
      rw [ih _ k h2, lookup_bumpCount_other _ _ _ h1]

theorem lookup_foldl_bumpCount_mem (ks : List String) :
    ∀ (m : List (String × Nat)) (k : String), k ∈ ks →
      (ks.foldl bumpCount m).lookup k = some (((m.lookup k).getD 0) + ks.count k) := by
  induction ks with
  | nil => intro m k hk; exact absurd hk (List.not_mem_nil k)
  | cons y ys ih =>
      intro m k hk
      by_cases hmem : k ∈ ys
      · rw [List.foldl_cons, ih _ _ hmem]
        by_cases hky : k = y
        · subst hky
          rw [lookup_bumpCount_self]
          simp only [Option.getD_some, List.count_cons_self]
          congr 1
          omega
        · rw [lookup_bumpCount_other m y k hky, List.count_cons_of_ne hky]
      · have hky : k = y := by
          rcases List.mem_cons.mp hk with h | h
          · exact h
          · exact absurd h hmem
        subst hky
        rw [List.foldl_cons, lookup_foldl_bumpCount_not_mem ys _ k hmem,
          lookup_bumpCount_self]
        have hc : ys.count k = 0 := List.count_eq_zero.mpr hmem
        simp [List.count_cons_self, hc]

theorem assoc_eq_map_lookup (l : List (String × Nat)) (h : (l.map Prod.fst).Nodup) :
    l = (l.map Prod.fst).map (fun k => (k, (l.lookup k).getD 0)) := by
  induction l with
  | nil => rfl
  | cons p rest ih =>
      obtain ⟨k, v⟩ := p
      simp only [List.map_cons] at h ⊢
      have hk : k ∉ rest.map Prod.fst := (List.nodup_cons.mp h).1
      have hrest := ih (List.nodup_cons.mp h).2
      have hhead : (((k, v) :: rest).lookup k).getD 0 = v := by
        simp
      have htail : (rest.map Prod.fst).map (fun k' => (k', (((k, v) :: rest).lookup k').getD 0))
          = (rest.map Prod.fst).map (fun k' => (k', (rest.lookup k').getD 0)) := by
        apply List.map_congr_left
        intro a ha
        have hne : a ≠ k := fun hh => hk (hh ▸ ha)
        simp [List.lookup, beq_eq_false_iff_ne.mpr hne]
      rw [hhead, htail, ← hrest]

/-- C4: the alert-type distribution's labels are the distinct formatted
metric names present in the collection, in first-appearance order; its
values are the parallel per-label occurrence counts; and the values sum
to `|C|`. -/
theorem alertTypeDistribution_correct (C : List AlertRecord) :
    (processChartData C).alertTypeData.labels
      = firstAppearanceDedup (C.map (fun a => formatMetricName a.metric))
    ∧ (processChartData C).alertTypeData.labels.Nodup
    ∧ (∀ k : String, k ∈ (processChartData C).alertTypeData.labels
        ↔ k ∈ C.map (fun a => formatMetricName a.metric))
    ∧ (processChartData C).alertTypeData.values
      = (processChartData C).alertTypeData.labels.map
          (fun k => (C.map (fun a => formatMetricName a.metric)).count k)
    ∧ ((processChartData C).alertTypeData.values).sum = C.length := by
  set ks := C.map (fun a => formatMetricName a.metric) with hks
  have hmc : metricCounts C = ks.foldl bumpCount [] := by
    rw [hks, metricCounts, List.foldl_map]
  have hlabels : (processChartData C).alertTypeData.labels = jsSetOf ks := by
    show (metricCounts C).map Prod.fst = jsSetOf ks
    rw [hmc, map_fst_foldl_bumpCount]
    rfl
  have hvalues : (processChartData C).alertTypeData.values = (metricCounts C).map Prod.snd := rfl
  refine ⟨?_, ?_, ?_, ?_, ?_⟩
  · rw [hlabels, jsSetOf_eq_firstAppearanceDedup]
  · rw [hlabels]
    exact nodup_jsSetOf ks
  · intro k
    rw [hlabels]
    exact mem_jsSetOf ks k
  · rw [hvalues, hlabels]
    have hassoc := assoc_eq_map_lookup (metricCounts C)
      (by rw [show (metricCounts C).map Prod.fst = jsSetOf ks from hlabels]
          exact nodup_jsSetOf ks)
    calc (metricCounts C).map Prod.snd
        = (((metricCounts C).map Prod.fst).map
            (fun k => (k, ((metricCounts C).lookup k).getD 0))).map Prod.snd := by
          rw [← hassoc]
      _ = ((metricCounts C).map Prod.fst).map
            (fun k => ((metricCounts C).lookup k).getD 0) := by
          rw [List.map_map]
          simp [Function.comp]
      _ = (jsSetOf ks).map (fun k => ((metricCounts C).lookup k).getD 0) := by
          rw [show (metricCounts C).map Prod.fst = jsSetOf ks from hlabels]
      _ = (jsSetOf ks).map (fun k => ks.count k) := by
          apply List.map_congr_left
          intro k hkmem
          have hkks : k ∈ ks := (mem_jsSetOf ks k).mp hkmem
          rw [hmc, lookup_foldl_bumpCount_mem ks [] k hkks]
          simp
  · rw [hvalues, hmc, sum_foldl_bumpCount]
    simp [hks]

/-- C2 witness: concrete evaluation on a one-record collection — the
record is selected, its metric is `cpu_usage`, and the output length is
`min 10 1 = 1`. -/
theorem cpuAlerts_correct_witness :
    (⟨"2024-01-01 10:00:00", "h1", "cpu_usage", 90⟩ : AlertRecord)
        ∈ cpuAlerts [⟨"2024-01-01 10:00:00", "h1", "cpu_usage", 90⟩]
    ∧ (⟨"2024-01-01 10:00:00", "h1", "cpu_usage", 90⟩ : AlertRecord).metric = "cpu_usage"
    ∧ (cpuAlerts [⟨"2024-01-01 10:00:00", "h1", "cpu_usage", 90⟩]).length
        = min 10 ([(⟨"2024-01-01 10:00:00", "h1", "cpu_usage", 90⟩ : AlertRecord)].filter
            (fun a => a.metric == "cpu_usage")).length := by
  have hmem : (⟨"2024-01-01 10:00:00", "h1", "cpu_usage", 90⟩ : AlertRecord)
      ∈ cpuAlerts [⟨"2024-01-01 10:00:00", "h1", "cpu_usage", 90⟩] := by
    simp [cpuAlerts, sliceLast10]
  exact ⟨hmem,
    (cpuAlerts_correct [⟨"2024-01-01 10:00:00", "h1", "cpu_usage", 90⟩]).2.2.2.2.2.2 _ hmem,
    (cpuAlerts_correct [⟨"2024-01-01 10:00:00", "h1", "cpu_usage", 90⟩]).2.2.2.2.1⟩

/-! ### Chart instance bookkeeping (C9) -/

theorem live_append_fresh (L : List (Nat × String)) (n : Nat) (c : String)
    (h1 : ∀ p ∈ L, p.1 < n) (h2 : (L.map Prod.fst).Nodup) :
    (∀ p ∈ L ++ [(n, c)], p.1 < n + 1) ∧ ((L ++ [(n, c)]).map Prod.fst).Nodup := by
  constructor
  · intro p hp
    rcases List.mem_append.mp hp with h | h
    · exact Nat.lt_succ_of_lt (h1 p h)
    · rw [List.mem_singleton.mp h]
      exact Nat.lt_succ_self n
  · rw [List.map_append, List.nodup_append]
    refine ⟨h2, by simp, ?_⟩
    intro a ha hb
    simp only [List.map_cons, List.map_nil, List.mem_singleton] at hb
    subst hb
    obtain ⟨p, hp, hpa⟩ := List.mem_map.mp ha
    have := h1 p hp
    omega

theorem length_le_one_of_nodup_const (l : List Nat) (i : Nat)
    (hn : l.Nodup) (hc : ∀ x ∈ l, x = i) : l.length ≤ 1 := by
  match l with
  | [] => simp
  | [x] => simp
  | x :: y :: rest =>
      have hx : x = i := hc x (List.mem_cons_self _ _)
      have hy : y = i := hc y (List.mem_cons_of_mem _ (List.mem_cons_self _ _))
      have hxy : x ≠ y := by
        have hnx := (List.nodup_cons.mp hn).1
        intro hEq
        exact hnx (hEq ▸ List.mem_cons_self y rest)
      exact absurd (hx.trans hy.symm) hxy

theorem renderCpuTrendChart_spec (st : ChartState) (d : CpuSeries) (h : st.wf) :
    (renderCpuTrendChart st d).wf
    ∧ liveOn (renderCpuTrendChart st d) "cpuTrendChart" = [(st.nextId, "cpuTrendChart")]
    ∧ liveOn (renderCpuTrendChart st d) "alertTypeChart" = liveOn st "alertTypeChart"
    ∧ (renderCpuTrendChart st d).alertTypeChart = st.alertTypeChart
    ∧ (renderCpuTrendChart st d).cpuTrendChart = some st.nextId
    ∧ (renderCpuTrendChart st d).nextId = st.nextId + 1 := by
  obtain ⟨h1, h2, h3, h4, h5, h6, h7⟩ := h
  cases hc : st.cpuTrendChart with
  | none =>
      have hlit : renderCpuTrendChart st d
          = ⟨st.nextId + 1, st.live ++ [(st.nextId, "cpuTrendChart")],
              some st.nextId, st.alertTypeChart⟩ := by
        simp [renderCpuTrendChart, hc]
      have hnocpu : ∀ p ∈ st.live, p.2 ≠ "cpuTrendChart" := by
        intro p hp htag
        have h3p := h3 p hp htag
        rw [hc] at h3p
        exact Option.noConfusion h3p
      have hfresh := live_append_fresh st.live st.nextId "cpuTrendChart" h1 h2
      have hfn : st.live.filter (fun p => p.2 = "cpuTrendChart") = [] := by
        apply List.filter_eq_nil_iff.mpr
        intro a ha
        simp only [decide_eq_true_eq]
        exact hnocpu a ha
      refine ⟨⟨?_, ?_, ?_, ?_, ?_, ?_, ?_⟩, ?_, ?_, ?_, ?_, ?_⟩
      · rw [hlit]; exact hfresh.1
      · rw [hlit]; exact hfresh.2
      · rw [hlit]
        intro p hp htag
        rcases List.mem_append.mp hp with hold | hnew
        · exact absurd htag (hnocpu p hold)
        · rw [List.mem_singleton.mp hnew]
      · rw [hlit]
        intro p hp htag
        rcases List.mem_append.mp hp with hold | hnew
        · exact h4 p hold htag
        · rw [List.mem_singleton.mp hnew] at htag
          simp at htag
      · rw [hlit]
        intro j hj
        simp only [Option.some.injEq] at hj
        subst hj
        exact Nat.lt_succ_self _
      · rw [hlit]
        intro j hj
        exact Nat.lt_succ_of_lt (h6 j hj)
      · rw [hlit]
        intro j hj hty
        simp only [Option.some.injEq] at hj
        subst hj
        exact absurd (h6 _ hty) (Nat.lt_irrefl _)
      · rw [hlit]
        simp [liveOn, List.filter_append, hfn]
      · rw [hlit]
        simp [liveOn, List.filter_append]
      · rw [hlit]
      · rw [hlit]
      · rw [hlit]
  | some i =>
      have hlit : renderCpuTrendChart st d
          = ⟨st.nextId + 1,
              st.live.filter (fun p => p.1 ≠ i) ++ [(st.nextId, "cpuTrendChart")],
              some st.nextId, st.alertTypeChart⟩ := by
        simp [renderCpuTrendChart, hc, destroyChart]
      have hcpuold : ∀ p ∈ st.live, p.2 = "cpuTrendChart" → p.1 = i := by
        intro p hp ht
        have h3p := h3 p hp ht
        rw [hc] at h3p
        exact (Option.some.inj h3p).symm
      have hmemf : ∀ p ∈ st.live.filter (fun p => p.1 ≠ i), p ∈ st.live := by
        intro p hp
        exact (List.mem_filter.mp hp).1
      have hfresh := live_append_fresh (st.live.filter (fun p => p.1 ≠ i)) st.nextId
        "cpuTrendChart" (fun p hp => h1 p (hmemf p hp))
        (List.Nodup.sublist (List.Sublist.map Prod.fst (List.filter_sublist _)) h2)
      have hfn : (st.live.filter (fun p => p.1 ≠ i)).filter
          (fun p => p.2 = "cpuTrendChart") = [] := by
        rw [List.filter_filter]
        apply List.filter_eq_nil_iff.mpr
        intro a ha
        by_cases ht : a.2 = "cpuTrendChart"
        · have hai : a.1 = i := hcpuold a ha ht
          simp [ht, hai]
        · simp [ht]
      have hft : (st.live.filter (fun p => p.1 ≠ i)).filter
            (fun p => p.2 = "alertTypeChart")
          = st.live.filter (fun p => p.2 = "alertTypeChart") := by
        rw [List.filter_filter]
        apply List.filter_congr
        intro a ha
        by_cases ht : a.2 = "alertTypeChart"
        · have hpi : a.1 ≠ i := by
            intro hEq
            have h4a := h4 a ha ht
            rw [hEq] at h4a
            exact h7 i hc h4a
          simp [ht, hpi]
        · simp [ht]
      refine ⟨⟨?_, ?_, ?_, ?_, ?_, ?_, ?_⟩, ?_, ?_, ?_, ?_, ?_⟩
      · rw [hlit]; exact hfresh.1
      · rw [hlit]; exact hfresh.2
      · rw [hlit]
        intro p hp htag
        rcases List.mem_append.mp hp with hold | hnew
        · have hne := (List.mem_filter.mp hold).2
          simp only [decide_eq_true_eq] at hne
          exact absurd (hcpuold p (hmemf p hold) htag) hne
        · rw [List.mem_singleton.mp hnew]
      · rw [hlit]
        intro p hp htag
        rcases List.mem_append.mp hp with hold | hnew
        · exact h4 p (hmemf p hold) htag
        · rw [List.mem_singleton.mp hnew] at htag
          simp at htag
      · rw [hlit]
        intro j hj
        simp only [Option.some.injEq] at hj
        subst hj
        exact Nat.lt_succ_self _
      · rw [hlit]
        intro j hj
        exact Nat.lt_succ_of_lt (h6 j hj)
      · rw [hlit]
        intro j hj hty
        simp only [Option.some.injEq] at hj
        subst hj
        exact absurd (h6 _ hty) (Nat.lt_irrefl _)
      · rw [hlit]
        simp only [liveOn, List.filter_append]
        rw [hfn]
        simp
      · rw [hlit]
        simp only [liveOn, List.filter_append]
        rw [hft]
        simp
      · rw [hlit]
      · rw [hlit]
      · rw [hlit]

theorem renderAlertTypeChart_spec (st : ChartState) (d : TypeSeries) (h : st.wf) :
    (renderAlertTypeChart st d).wf
    ∧ liveOn (renderAlertTypeChart st d) "alertTypeChart" = [(st.nextId, "alertTypeChart")]
    ∧ liveOn (renderAlertTypeChart st d) "cpuTrendChart" = liveOn st "cpuTrendChart"
    ∧ (renderAlertTypeChart st d).cpuTrendChart = st.cpuTrendChart
    ∧ (renderAlertTypeChart st d).alertTypeChart = some st.nextId
    ∧ (renderAlertTypeChart st d).nextId = st.nextId + 1 := by
  obtain ⟨h1, h2, h3, h4, h5, h6, h7⟩ := h
  cases hc : st.alertTypeChart with
  | none =>
      have hlit : renderAlertTypeChart st d
          = ⟨st.nextId + 1, st.live ++ [(st.nextId, "alertTypeChart")],
              st.cpuTrendChart, some st.nextId⟩ := by
        simp [renderAlertTypeChart, hc]
      have hnotype : ∀ p ∈ st.live, p.2 ≠ "alertTypeChart" := by
        intro p hp htag
        have h4p := h4 p hp htag
        rw [hc] at h4p
        exact Option.noConfusion h4p
      have hfresh := live_append_fresh st.live st.nextId "alertTypeChart" h1 h2
      have hfn : st.live.filter (fun p => p.2 = "alertTypeChart") = [] := by
        apply List.filter_eq_nil_iff.mpr
        intro a ha
        simp only [decide_eq_true_eq]
        exact hnotype a ha
      refine ⟨⟨?_, ?_, ?_, ?_, ?_, ?_, ?_⟩, ?_, ?_, ?_, ?_, ?_⟩
      · rw [hlit]; exact hfresh.1
      · rw [hlit]; exact hfresh.2
      · rw [hlit]
        intro p hp htag
        rcases List.mem_append.mp hp with hold | hnew
        · exact h3 p hold htag
        · rw [List.mem_singleton.mp hnew] at htag
          simp at htag
      · rw [hlit]
        intro p hp htag
        rcases List.mem_append.mp hp with hold | hnew
        · exact absurd htag (hnotype p hold)
        · rw [List.mem_singleton.mp hnew]
      · rw [hlit]
        intro j hj
        exact Nat.lt_succ_of_lt (h5 j hj)
      · rw [hlit]
        intro j hj
        simp only [Option.some.injEq] at hj
        subst hj
        exact Nat.lt_succ_self _
      · rw [hlit]
        intro j hj hty
        simp only [Option.some.injEq] at hty
        subst hty
        exact absurd (h5 _ hj) (Nat.lt_irrefl _)
      · rw [hlit]
        simp only [liveOn, List.filter_append]
        rw [hfn]
        simp
      · rw [hlit]
        simp [liveOn, List.filter_append]
      · rw [hlit]
      · rw [hlit]
      · rw [hlit]
  | some i =>
      have hlit : renderAlertTypeChart st d
          = ⟨st.nextId + 1,
              st.live.filter (fun p => p.1 ≠ i) ++ [(st.nextId, "alertTypeChart")],
              st.cpuTrendChart, some st.nextId⟩ := by
        simp [renderAlertTypeChart, hc, destroyChart]
      have htypeold : ∀ p ∈ st.live, p.2 = "alertTypeChart" → p.1 = i := by
        intro p hp ht
        have h4p := h4 p hp ht
        rw [hc] at h4p
        exact (Option.some.inj h4p).symm
      have hmemf : ∀ p ∈ st.live.filter (fun p => p.1 ≠ i), p ∈ st.live := by
        intro p hp
        exact (List.mem_filter.mp hp).1
      have hfresh := live_append_fresh (st.live.filter (fun p => p.1 ≠ i)) st.nextId
        "alertTypeChart" (fun p hp => h1 p (hmemf p hp))
        (List.Nodup.sublist (List.Sublist.map Prod.fst (List.filter_sublist _)) h2)
      have hfn : (st.live.filter (fun p => p.1 ≠ i)).filter
          (fun p => p.2 = "alertTypeChart") = [] := by
        rw [List.filter_filter]
        apply List.filter_eq_nil_iff.mpr
        intro a ha
        by_cases ht : a.2 = "alertTypeChart"
        · have hai : a.1 = i := htypeold a ha ht
          simp [ht, hai]
        · simp [ht]
      have hft : (st.live.filter (fun p => p.1 ≠ i)).filter
            (fun p => p.2 = "cpuTrendChart")
          = st.live.filter (fun p => p.2 = "cpuTrendChart") := by
        rw [List.filter_filter]
        apply List.filter_congr
        intro a ha
        by_cases ht : a.2 = "cpuTrendChart"
        · have hpi : a.1 ≠ i := by
            intro hEq
            have h3a := h3 a ha ht
            rw [hEq] at h3a
            exact h7 i h3a hc
          simp [ht, hpi]
        · simp [ht]
      refine ⟨⟨?_, ?_, ?_, ?_, ?_, ?_, ?_⟩, ?_, ?_, ?_, ?_, ?_⟩
      · rw [hlit]; exact hfresh.1
      · rw [hlit]; exact hfresh.2
      · rw [hlit]
        intro p hp htag
        rcases List.mem_append.mp hp with hold | hnew
        · exact h3 p (hmemf p hold) htag
        · rw [List.mem_singleton.mp hnew] at htag
          simp at htag
      · rw [hlit]
        intro p hp htag
        rcases List.mem_append.mp hp with hold | hnew
        · have hne := (List.mem_filter.mp hold).2
          simp only [decide_eq_true_eq] at hne
          exact absurd (htypeold p (hmemf p hold) htag) hne
        · rw [List.mem_singleton.mp hnew]
      · rw [hlit]
        intro j hj
        exact Nat.lt_succ_of_lt (h5 j hj)
      · rw [hlit]
        intro j hj
        simp only [Option.some.injEq] at hj
        subst hj
        exact Nat.lt_succ_self _
      · rw [hlit]
        intro j hj hty
        simp only [Option.some.injEq] at hty
        subst hty
        exact absurd (h5 _ hj) (Nat.lt_irrefl _)
      · rw [hlit]
        simp only [liveOn, List.filter_append]
        rw [hfn]
        simp
      · rw [hlit]
        simp only [liveOn, List.filter_append]
        rw [hft]
        simp
      · rw [hlit]
      · rw [hlit]
      · rw [hlit]

theorem renderCharts_spec (st : ChartState) (C : List AlertRecord) (h : st.wf) :
    (renderCharts st C).wf
    ∧ liveOn (renderCharts st C) "cpuTrendChart" = [(st.nextId, "cpuTrendChart")]
    ∧ liveOn (renderCharts st C) "alertTypeChart" = [(st.nextId + 1, "alertTypeChart")] := by
  have hcpu := renderCpuTrendChart_spec st (processChartData C).cpuData h
  have htype := renderAlertTypeChart_spec
    (renderCpuTrendChart st (processChartData C).cpuData)
    (processChartData C).alertTypeData hcpu.1
  have heq : renderCharts st C
      = renderAlertTypeChart (renderCpuTrendChart st (processChartData C).cpuData)
          (processChartData C).alertTypeData := rfl
  refine ⟨?_, ?_, ?_⟩
  · rw [heq]; exact htype.1
  · rw [heq, htype.2.2.1]
    exact hcpu.2.1
  · rw [heq, htype.2.1, hcpu.2.2.2.2.2]

theorem liveOn_length_le_one (s : ChartState) (h : s.wf) :
    (liveOn s "cpuTrendChart").length ≤ 1 ∧ (liveOn s "alertTypeChart").length ≤ 1 := by
  obtain ⟨h1, h2, h3, h4, h5, h6, h7⟩ := h
  constructor
  · cases hc : s.cpuTrendChart with
    | none =>
        have hempty : liveOn s "cpuTrendChart" = [] := by
          apply List.filter_eq_nil_iff.mpr
          intro a ha
          simp only [decide_eq_true_eq]
          intro ht
          have h3a := h3 a ha ht
          rw [hc] at h3a
          exact Option.noConfusion h3a
        simp [hempty]
    | some i =>
        have hsub : List.Sublist ((liveOn s "cpuTrendChart").map Prod.fst)
            (s.live.map Prod.fst) :=
          List.Sublist.map Prod.fst (List.filter_sublist _)
        have hnd : ((liveOn s "cpuTrendChart").map Prod.fst).Nodup :=
          List.Nodup.sublist hsub h2
        have hconst : ∀ x ∈ (liveOn s "cpuTrendChart").map Prod.fst, x = i := by
          intro x hx
          obtain ⟨p, hp, hpx⟩ := List.mem_map.mp hx
          have hmem := List.mem_filter.mp hp
          have ht : p.2 = "cpuTrendChart" := by simpa using hmem.2
          have h3p := h3 p hmem.1 ht
          rw [hc] at h3p
          rw [← hpx]
          exact (Option.some.inj h3p).symm
        have hle := length_le_one_of_nodup_const _ i hnd hconst
        rwa [List.length_map] at hle
  · cases hc : s.alertTypeChart with
    | none =>
        have hempty : liveOn s "alertTypeChart" = [] := by
          apply List.filter_eq_nil_iff.mpr
          intro a ha
          simp only [decide_eq_true_eq]
          intro ht
          have h4a := h4 a ha ht
          rw [hc] at h4a
          exact Option.noConfusion h4a
        simp [hempty]
    | some i =>
        have hsub : List.Sublist ((liveOn s "alertTypeChart").map Prod.fst)
            (s.live.map Prod.fst) :=
          List.Sublist.map Prod.fst (List.filter_sublist _)
        have hnd : ((liveOn s "alertTypeChart").map Prod.fst).Nodup :=
          List.Nodup.sublist hsub h2
        have hconst : ∀ x ∈ (liveOn s "alertTypeChart").map Prod.fst, x = i := by
          intro x hx
          obtain ⟨p, hp, hpx⟩ := List.mem_map.mp hx
          have hmem := List.mem_filter.mp hp
          have ht : p.2 = "alertTypeChart" := by simpa using hmem.2
          have h4p := h4 p hmem.1 ht
          rw [hc] at h4p
          rw [← hpx]
          exact (Option.some.inj h4p).symm
        have hle := length_le_one_of_nodup_const _ i hnd hconst
        rwa [List.length_map] at hle

/-- C9: from any well-formed chart state, repainting destroys the tracked
prior instance of each slot before creating its replacement: after a
repaint each canvas carries exactly the one fresh instance, repainting
twice (with the same or different data) still leaves exactly one live
instance per canvas, and every well-formed state has at most one live
instance per canvas. -/
theorem chartSlots_single_instance (st : ChartState) (C C2 : List AlertRecord)
    (h : st.wf) :
    (renderCharts st C).wf
    ∧ liveOn (renderCharts st C) "cpuTrendChart" = [(st.nextId, "cpuTrendChart")]
    ∧ liveOn (renderCharts st C) "alertTypeChart" = [(st.nextId + 1, "alertTypeChart")]
    ∧ (liveOn (renderCharts (renderCharts st C) C2) "cpuTrendChart").length = 1
    ∧ (liveOn (renderCharts (renderCharts st C) C2) "alertTypeChart").length = 1
    ∧ (∀ s : ChartState, s.wf →
        (liveOn s "cpuTrendChart").length ≤ 1 ∧ (liveOn s "alertTypeChart").length ≤ 1) := by
  have r1 := renderCharts_spec st C h
  have r2 := renderCharts_spec (renderCharts st C) C2 r1.1
  exact ⟨r1.1, r1.2.1, r1.2.2, by rw [r2.2.1]; rfl, by rw [r2.2.2]; rfl,
    fun s hs => liveOn_length_le_one s hs⟩

/-- C9 witness: starting from the initial state (both globals `null`),
two successive repaints leave exactly one live instance per canvas. -/
theorem chartSlots_single_instance_witness :
    initialChartState.wf
    ∧ liveOn (renderCharts initialChartState []) "cpuTrendChart"
        = [(initialChartState.nextId, "cpuTrendChart")]
    ∧ (liveOn (renderCharts (renderCharts initialChartState []) []) "cpuTrendChart").length = 1
    ∧ (liveOn (renderCharts (renderCharts initialChartState []) []) "alertTypeChart").length = 1 := by
  have hwf : initialChartState.wf := by
    refine ⟨?_, ?_, ?_, ?_, ?_, ?_, ?_⟩ <;> simp [initialChartState]
  have h := chartSlots_single_instance initialChartState [] [] hwf
  exact ⟨hwf, h.2.1, h.2.2.2.1, h.2.2.2.2.1⟩

end MyMonitor
